import Mathlib

/-
Verification development for `lensless/hardware/mask_3dmodel.py`.

The module builds a fabricable 3D solid from a binary amplitude mask:
a frame (`SimpleFrame`), a support lattice (`CrossConnection`,
`SaltireConnection`), and one box per transparent mask cell, composed
with constructive solid geometry (cadquery).

We embed the geometry as a small CSG syntax (`Solid`) mirroring the
cadquery primitives the source uses (`box`, `cylinder`, a closed
polyline extruded by `extrude`, `rect` + `cutThruAll`, boolean union
and cut), together with a decidable point-membership semantics over ℚ.
cadquery's `centered` flags are modelled exactly: a `true` axis centers
the extent on the reference point, a `false` axis makes the extent grow
in the positive direction from the reference point.

Masks are embedded as `List (List ℚ)` (row-major, shape `(H, W)`), and
`np.argwhere(mask == 0)` as a row-major scan for zero entries.

The saltire generator divides by `np.sqrt(2)`; to keep every definition
computable that square root is an explicit parameter `sqrt2`, which the
theorems instantiate with `Real.sqrt 2`.
-/

/-- Axis-aligned box in the cadquery sense: a reference point `(px, py, pz)`,
dimensions `(dx, dy, dz)` and per-axis `centered` flags `(cx, cy, cz)`. -/
structure Box (α : Type) where
  px : α
  py : α
  pz : α
  dx : α
  dy : α
  dz : α
  cx : Bool
  cy : Bool
  cz : Bool
deriving DecidableEq

/-- Lower bound of a one-axis extent: centered flags center the extent on the
reference coordinate, otherwise the extent grows in the positive direction. -/
def axLo {α : Type} [DivisionRing α] (pos d : α) (c : Bool) : α :=
  if c then pos - d / 2 else pos

/-- Upper bound of a one-axis extent, dual to `axLo`. -/
def axHi {α : Type} [DivisionRing α] (pos d : α) (c : Bool) : α :=
  if c then pos + d / 2 else pos + d

/-- Lower x-extent of a box. -/
def Box.xlo {α : Type} [DivisionRing α] (b : Box α) : α := axLo b.px b.dx b.cx

/-- Upper x-extent of a box. -/
def Box.xhi {α : Type} [DivisionRing α] (b : Box α) : α := axHi b.px b.dx b.cx

/-- Lower y-extent of a box. -/
def Box.ylo {α : Type} [DivisionRing α] (b : Box α) : α := axLo b.py b.dy b.cy

/-- Upper y-extent of a box. -/
def Box.yhi {α : Type} [DivisionRing α] (b : Box α) : α := axHi b.py b.dy b.cy

/-- Lower z-extent of a box. -/
def Box.zlo {α : Type} [DivisionRing α] (b : Box α) : α := axLo b.pz b.dz b.cz

/-- Upper z-extent of a box. -/
def Box.zhi {α : Type} [DivisionRing α] (b : Box α) : α := axHi b.pz b.dz b.cz

/-- CSG solids as the source constructs them with cadquery: boxes, a cylinder
whose axis passes through the workplane origin (`height`, `radius`, and the
z-`centered` flag; the source always centers x and y), an infinite-z centered
rectangle (the `rect` + `cutThruAll` cutting tool), an extruded closed polygon
profile (vertex list plus extrusion height, z from 0), and boolean union/cut. -/
inductive Solid (α : Type) where
  | box : Box α → Solid α
  | cylinder : α → α → Bool → Solid α
  | rectThru : α → α → Solid α
  | prism : List (α × α) → α → Solid α
  | union : Solid α → Solid α → Solid α
  | cut : Solid α → Solid α → Solid α
deriving DecidableEq

/-- Even-odd ray-casting test for one polygon edge: does the horizontal ray
from `p` toward positive x cross the open edge from `a` to `b`. -/
def edgeCross (p a b : ℚ × ℚ) : Bool :=
  (decide (a.2 ≤ p.2) != decide (b.2 ≤ p.2)) &&
    decide (p.1 < a.1 + (p.2 - a.2) * (b.1 - a.1) / (b.2 - a.2))

/-- Even-odd point-in-polygon test over the closed vertex cycle. -/
def inPolygon (vs : List (ℚ × ℚ)) (p : ℚ × ℚ) : Bool :=
  match vs with
  | [] => false
  | v :: _ =>
    decide ((((vs.zip (vs.drop 1 ++ [v])).filter fun e => edgeCross p e.1 e.2).length) % 2 = 1)

/-- Decidable point membership of the CSG semantics over ℚ. -/
def memSolid : Solid ℚ → ℚ × ℚ × ℚ → Bool
  | .box b, (x, y, z) =>
      decide (Box.xlo b ≤ x) && decide (x ≤ Box.xhi b) &&
      decide (Box.ylo b ≤ y) && decide (y ≤ Box.yhi b) &&
      decide (Box.zlo b ≤ z) && decide (z ≤ Box.zhi b)
  | .cylinder hgt r zc, (x, y, z) =>
      decide (x * x + y * y ≤ r * r) &&
      (if zc then decide (-(hgt / 2) ≤ z) && decide (z ≤ hgt / 2)
       else decide (0 ≤ z) && decide (z ≤ hgt))
  | .rectThru w h, (x, y, _z) =>
      decide (-(w / 2) ≤ x) && decide (x ≤ w / 2) &&
      decide (-(h / 2) ≤ y) && decide (y ≤ h / 2)
  | .prism vs hgt, (x, y, z) =>
      inPolygon vs (x, y) && decide (0 ≤ z) && decide (z ≤ hgt)
  | .union a b, p => memSolid a p || memSolid b p
  | .cut a b, p => memSolid a p && !(memSolid b p)

/-- Shape `(H, W)` of a row-major mask array, as `np.ndarray.shape`. -/
def maskShape (mask : List (List ℚ)) : ℕ × ℕ :=
  (mask.length, (mask.headD []).length)

/-- Column indices of the zero entries of one mask row, starting the column
count at `j0` (row-major component of `np.argwhere(mask == 0)`). -/
def zeroColsFrom : ℕ → List ℚ → List ℕ
  | _, [] => []
  | j0, v :: vs =>
      if v = 0 then j0 :: zeroColsFrom (j0 + 1) vs else zeroColsFrom (j0 + 1) vs

/-- Row-major `(row, col)` indices of the zero entries of the mask, starting
the row count at `i0`: this is `np.argwhere(mask == 0)`. -/
def zeroCells : ℕ → List (List ℚ) → List (ℕ × ℕ)
  | _, [] => []
  | i0, row :: rows =>
      ((zeroColsFrom 0 row).map fun j => (i0, j)) ++ zeroCells (i0 + 1) rows

/-- Number of zero entries of one row. -/
def countZerosRow : List ℚ → ℕ
  | [] => 0
  | v :: vs => (if v = 0 then 1 else 0) + countZerosRow vs

/-- Number of zero entries of the whole mask. -/
def countZeros : List (List ℚ) → ℕ
  | [] => 0
  | row :: rows => countZerosRow row + countZeros rows

/-- Entry of the mask at row `i`, column `j`, when both are in range. -/
def cellAt (mask : List (List ℚ)) (i j : ℕ) : Option ℚ :=
  (mask.get? i).bind fun row => row.get? j

/-- The mask is a rectangular `H × W` grid. -/
def isGrid (mask : List (List ℚ)) (H W : ℕ) : Prop :=
  mask.length = H ∧ ∀ row ∈ mask, row.length = W

instance (mask : List (List ℚ)) (H W : ℕ) : Decidable (isGrid mask H W) :=
  inferInstanceAs (Decidable (_ ∧ _))

/-- Source `MaskModel.mask_to_points`: `np.argwhere(mask == 0)` minus
`np.array(mask.shape)/2`, multiplied element-wise by `px_size`. The
`mask_size` parameter is accepted and never read, exactly as in the source. -/
def MaskModel.mask_to_points (mask : List (List ℚ)) (mask_size : ℚ × ℚ)
    (px_size : ℚ × ℚ) : List (ℚ × ℚ) :=
  (zeroCells 0 mask).map fun ij =>
    (((ij.1 : ℚ) - ((maskShape mask).1 : ℚ) / 2) * px_size.1,
     ((ij.2 : ℚ) - ((maskShape mask).2 : ℚ) / 2) * px_size.2)

/-- Aperture boxes of `MaskModel._generate_3d_model`: `pushPoints(points)`
followed by `box(px_size[0], px_size[1], depth, centered=False, combine=False)`
creates one corner-anchored box per stacked point. When the point list is
empty, cadquery's `eachpoint` falls back to a single point at the center of
the current workplane, so one box is still created, anchored at the origin. -/
def MaskModel.maskBoxes (mask : List (List ℚ)) (mask_size px : ℚ × ℚ)
    (depth : ℚ) : List (Box ℚ) :=
  let pts := MaskModel.mask_to_points mask mask_size px
  let pts := if pts = [] then [((0 : ℚ), (0 : ℚ))] else pts
  pts.map fun pt => ⟨pt.1, pt.2, 0, px.1, px.2, depth, false, false, false⟩

/-- Source `__init__` rescale of the sensor size: `np.array(mask_size)*1e3`. -/
def scaleSize (s : ℚ × ℚ) : ℚ × ℚ := (s.1 * 1000, s.2 * 1000)

/-- Source `_generate_3d_model` pixel size: `self.mask_size / self.mask.shape`,
an element-wise division of `(mask_size[0], mask_size[1])` by `(H, W)`. -/
def pxSize (mask_size : ℚ × ℚ) (shape : ℕ × ℕ) : ℚ × ℚ :=
  (mask_size.1 / (shape.1 : ℚ), mask_size.2 / (shape.2 : ℚ))

/-- Pixel size as the spec words state it, for refinement comparison only:
`pixel_width = width/W` and `pixel_height = height/H` with shape `(H, W)`. -/
def pxSizeSpec (mask_size : ℚ × ℚ) (shape : ℕ × ℕ) : ℚ × ℚ :=
  (mask_size.1 / (shape.2 : ℚ), mask_size.2 / (shape.1 : ℚ))

/-- Source `SimpleFrame.generate`: a `(width+2·padding, height+2·padding,
depth)` box with `centered=(True, True, False)`, then `rect(width, height)`
with `cutThruAll` (a cut through all material in both z directions). The
embedding records the constructed geometry; at a width or height of exactly
zero the real CAD kernel fails while building the degenerate `rect` wire
(`StdFail_NotDone`), so the theorems below stay away from zero dimensions,
and for negative dimensions they only assert membership of points that lie
outside the `rect` footprint. -/
def SimpleFrame.generate (padding : ℚ) (mask_size : ℚ × ℚ) (depth : ℚ) :
    Solid ℚ :=
  Solid.cut
    (Solid.box ⟨0, 0, 0, mask_size.1 + 2 * padding, mask_size.2 + 2 * padding,
      depth, true, true, false⟩)
    (Solid.rectThru mask_size.1 mask_size.2)

/-- Strut union of `CrossConnection.generate`: the vertical box
`(thickness, height, depth)` with `centered=(True, True, False)` is placed at
the workplane center (empty stack), so it spans `z ∈ [0, depth]` and has
center of mass `(0, 0, depth/2)`; the chained horizontal box
`(width, thickness, depth)` with `centered=(True, True, True)` is placed by
`eachpoint` at that center of mass and is combined by the default
`combine=True`, so it too spans `z ∈ [0, depth]`. -/
def CrossConnection.struts (thickness : ℚ) (mask_size : ℚ × ℚ) (depth : ℚ) :
    Solid ℚ :=
  Solid.union
    (Solid.box ⟨0, 0, 0, thickness, mask_size.2, depth, true, true, false⟩)
    (Solid.box ⟨0, 0, depth / 2, mask_size.1, thickness, depth, true, true, true⟩)

/-- Source `CrossConnection.generate`: the strut union, then, when a
`mask_radius` is given, `cut` of a `cylinder(depth, mask_radius,
centered=(True, True, False))`. The `mask` argument is never read. -/
def CrossConnection.generate (thickness : ℚ) (mask_radius : Option ℚ)
    (mask : List (List ℚ)) (mask_size : ℚ × ℚ) (depth : ℚ) : Solid ℚ :=
  let model := CrossConnection.struts thickness mask_size depth
  match mask_radius with
  | none => model
  | some r => Solid.cut model (Solid.cylinder depth r false)

/-- Source `l = self.thickness/np.sqrt(2)` of `SaltireConnection.generate`,
with `np.sqrt(2)` passed in as `sqrt2`. -/
def SaltireConnection.chamfer {α : Type} [Field α] (sqrt2 thickness : α) : α :=
  thickness / sqrt2

/-- Vertex cycle of the first saltire profile, read off the source's
`moveTo`/`lineTo` sequence with `w2 = width/2`, `h2 = height/2`. -/
def saltireP1 {α : Type} [Field α] (w2 h2 l : α) : List (α × α) :=
  [(-(w2 - l), -h2), (-w2, -h2), (-w2, -(h2 - l)),
   (w2 - l, h2), (w2, h2), (w2, h2 - l)]

/-- Vertex cycle of the second saltire profile, read off the source's
`moveTo`/`lineTo` sequence. -/
def saltireP2 {α : Type} [Field α] (w2 h2 l : α) : List (α × α) :=
  [(-(w2 - l), h2), (-w2, h2), (-w2, h2 - l),
   (w2 - l, -h2), (w2, -h2), (w2, -(h2 - l))]

/-- Strut union of `SaltireConnection.generate`: the two diagonal profiles,
each extruded by `depth` and combined by the chained `extrude` calls. -/
def SaltireConnection.struts {α : Type} [Field α] (sqrt2 thickness : α)
    (mask_size : α × α) (depth : α) : Solid α :=
  Solid.union
    (Solid.prism
      (saltireP1 (mask_size.1 / 2) (mask_size.2 / 2)
        (SaltireConnection.chamfer sqrt2 thickness)) depth)
    (Solid.prism
      (saltireP2 (mask_size.1 / 2) (mask_size.2 / 2)
        (SaltireConnection.chamfer sqrt2 thickness)) depth)

/-- Source `SaltireConnection.generate`: the two extruded diagonal profiles,
then, when a `mask_radius` is given, `cut` of a `cylinder(depth, mask_radius,
centered=(True, True, False))`. The `mask` argument is never read. -/
def SaltireConnection.generate {α : Type} [Field α] (sqrt2 thickness : α)
    (mask_radius : Option α) (mask : List (List ℚ)) (mask_size : α × α)
    (depth : α) : Solid α :=
  let model := SaltireConnection.struts sqrt2 thickness mask_size depth
  match mask_radius with
  | none => model
  | some r => Solid.cut model (Solid.cylinder depth r false)

/-- Debug axis geometry of `_generate_3d_model`: three chained default-centered
boxes (`axis_thickness = 0.1`, `axis_length = 20`) combined by the default
`combine=True`. -/
def MaskModel.axisModel : Solid ℚ :=
  Solid.union
    (Solid.union
      (Solid.box ⟨0, 0, 0, 1/10, 1/10, 20, true, true, true⟩)
      (Solid.box ⟨0, 0, 0, 1/10, 20, 1/10, true, true, true⟩))
    (Solid.box ⟨0, 0, 0, 20, 1/10, 1/10, true, true, true⟩)

/-- Workplane `combine`: union every collected solid into a single one. -/
def MaskModel.combineAll (ss : List (Solid ℚ)) : List (Solid ℚ) :=
  match ss with
  | [] => []
  | s :: rest => [rest.foldl Solid.union s]

/-- Source `MaskModel.__init__` followed by `_generate_3d_model`: rescale the
sensor size by 1000, generate the frame and connection solids, build one box
per transparent cell (one fallback box at the origin when there is no
transparent cell, inherited from the `eachpoint` empty-stack fallback),
optionally glue the aperture boxes (`simplify`), add the debug axes
(`show_axis`), optionally combine everything (`simplify`). The result is the
list of solids collected on the final workplane. No validation of the mask
values or of the dimensions is performed anywhere. -/
def MaskModel.construct (mask : List (List ℚ))
    (frameGen : ℚ × ℚ → ℚ → Solid ℚ)
    (connGen : List (List ℚ) → ℚ × ℚ → ℚ → Solid ℚ)
    (mask_size : ℚ × ℚ) (depth : ℚ) (simplify show_axis : Bool) :
    List (Solid ℚ) :=
  let msize := scaleSize mask_size
  let frame_model := frameGen msize depth
  let connection_model := connGen mask msize depth
  let px := pxSize msize (maskShape mask)
  let boxes := MaskModel.maskBoxes mask msize px depth
  let mask_model : List (Solid ℚ) :=
    if simplify then MaskModel.combineAll (boxes.map Solid.box)
    else boxes.map Solid.box
  let model := [frame_model, connection_model] ++ mask_model
  let model := if show_axis then model ++ [MaskModel.axisModel] else model
  if simplify then MaskModel.combineAll model else model

/-
Helper lemmas about the row-major zero-cell scan.
-/

/-- Membership of the per-row zero-column scan. -/
lemma zeroColsFrom_mem (row : List ℚ) : ∀ j0 j : ℕ,
    j ∈ zeroColsFrom j0 row ↔ ∃ k, row.get? k = some 0 ∧ j = j0 + k := by
  induction row with
  | nil => intro j0 j; simp [zeroColsFrom]
  | cons v vs ih =>
    intro j0 j
    by_cases hv : v = 0
    · simp only [zeroColsFrom, if_pos hv, List.mem_cons]
      constructor
      · rintro (rfl | h)
        · exact ⟨0, by simp [hv], by omega⟩
        · obtain ⟨k, hk, rfl⟩ := (ih (j0 + 1) j).mp h
          exact ⟨k + 1, by simpa using hk, by omega⟩
      · rintro ⟨k, hk, rfl⟩
        cases k with
        | zero => left; omega
        | succ k =>
          right
          exact (ih (j0 + 1) _).mpr ⟨k, by simpa using hk, by omega⟩
    · simp only [zeroColsFrom, if_neg hv]
      rw [ih (j0 + 1)]
      constructor
      · rintro ⟨k, hk, rfl⟩
        exact ⟨k + 1, by simpa using hk, by omega⟩
      · rintro ⟨k, hk, rfl⟩
        cases k with
        | zero => simp at hk; exact absurd hk hv
        | succ k => exact ⟨k, by simpa using hk, by omega⟩

/-- Length of the per-row zero-column scan. -/
lemma zeroColsFrom_length (row : List ℚ) : ∀ j0 : ℕ,
    (zeroColsFrom j0 row).length = countZerosRow row := by
  induction row with
  | nil => intro j0; simp [zeroColsFrom, countZerosRow]
  | cons v vs ih =>
    intro j0
    by_cases hv : v = 0 <;>
      simp [zeroColsFrom, countZerosRow, hv, ih (j0 + 1)]
    omega

/-- The cell accessor steps through a cons by one row. -/
lemma cellAt_cons_succ (row : List ℚ) (rows : List (List ℚ)) (i j : ℕ) :
    cellAt (row :: rows) (i + 1) j = cellAt rows i j := by
  simp [cellAt]

/-- The cell accessor on the first row is the row accessor. -/
lemma cellAt_cons_zero (row : List ℚ) (rows : List (List ℚ)) (j : ℕ) :
    cellAt (row :: rows) 0 j = row.get? j := by
  simp [cellAt]

/-- Membership of the row-major zero-cell scan. -/
lemma zeroCells_mem (mask : List (List ℚ)) : ∀ (i0 : ℕ) (p : ℕ × ℕ),
    p ∈ zeroCells i0 mask ↔
      ∃ i j, cellAt mask i j = some 0 ∧ p = (i0 + i, j) := by
  induction mask with
  | nil => intro i0 p; simp [zeroCells, cellAt]
  | cons row rows ih =>
    intro i0 p
    simp only [zeroCells, List.mem_append, List.mem_map]
    constructor
    · rintro (⟨j, hj, rfl⟩ | h)
      · obtain ⟨k, hk, rfl⟩ := (zeroColsFrom_mem row 0 j).mp hj
        exact ⟨0, 0 + k, by simpa [cellAt_cons_zero] using hk, by simp⟩
      · obtain ⟨i, j, hc, rfl⟩ := (ih (i0 + 1) p).mp h
        refine ⟨i + 1, j, by simpa [cellAt_cons_succ] using hc, ?_⟩
        have : i0 + 1 + i = i0 + (i + 1) := by omega
        rw [this]
    · rintro ⟨i, j, hc, rfl⟩
      cases i with
      | zero =>
        left
        refine ⟨j, ?_, by simp⟩
        rw [cellAt_cons_zero] at hc
        exact (zeroColsFrom_mem row 0 j).mpr ⟨j, hc, by omega⟩
      | succ i =>
        right
        rw [cellAt_cons_succ] at hc
        have : i0 + (i + 1) = i0 + 1 + i := by omega
        rw [this]
        exact (ih (i0 + 1) _).mpr ⟨i, j, hc, rfl⟩

/-- Length of the row-major zero-cell scan. -/
lemma zeroCells_length (mask : List (List ℚ)) : ∀ i0 : ℕ,
    (zeroCells i0 mask).length = countZeros mask := by
  induction mask with
  | nil => intro i0; simp [zeroCells, countZeros]
  | cons row rows ih =>
    intro i0
    simp [zeroCells, countZeros, zeroColsFrom_length, ih (i0 + 1)]

/-- A mask all of whose entries are nonzero has no zero entries. -/
lemma countZerosRow_eq_zero (row : List ℚ) (h : ∀ v ∈ row, v ≠ 0) :
    countZerosRow row = 0 := by
  induction row with
  | nil => simp [countZerosRow]
  | cons v vs ih =>
    have hv : ¬v = 0 := h v (by simp)
    simp [countZerosRow, hv, ih fun w hw => h w (by simp [hw])]

/-- A mask all of whose entries are nonzero has zero count zero. -/
lemma countZeros_eq_zero (mask : List (List ℚ))
    (h : ∀ row ∈ mask, ∀ v ∈ row, v ≠ 0) : countZeros mask = 0 := by
  induction mask with
  | nil => simp [countZeros]
  | cons row rows ih =>
    simp [countZeros, countZerosRow_eq_zero row (h row (by simp)),
      ih fun r hr => h r (by simp [hr])]

/-- A row all of whose entries are zero counts its full length. -/
lemma countZerosRow_all (row : List ℚ) (h : ∀ v ∈ row, v = 0) :
    countZerosRow row = row.length := by
  induction row with
  | nil => simp [countZerosRow]
  | cons v vs ih =>
    have hv : v = 0 := h v (by simp)
    simp [countZerosRow, hv, ih fun w hw => h w (by simp [hw])]
    omega

/-- An all-zero rectangular mask counts every cell. -/
lemma countZeros_all (mask : List (List ℚ)) (W : ℕ)
    (hW : ∀ row ∈ mask, row.length = W)
    (h0 : ∀ row ∈ mask, ∀ v ∈ row, v = 0) :
    countZeros mask = mask.length * W := by
  induction mask with
  | nil => simp [countZeros]
  | cons row rows ih =>
    have h1 : countZerosRow row = W := by
      rw [countZerosRow_all row (h0 row (by simp))]
      exact hW row (by simp)
    have h2 : countZeros rows = rows.length * W :=
      ih (fun r hr => hW r (by simp [hr])) (fun r hr => h0 r (by simp [hr]))
    simp only [countZeros, h1, h2, List.length_cons]
    ring

/-- On a nonempty rectangular grid the computed shape is `(H, W)`. -/
lemma maskShape_eq (mask : List (List ℚ)) (H W : ℕ) (hg : isGrid mask H W)
    (hne : mask ≠ []) : maskShape mask = (H, W) := by
  obtain ⟨r, rs, rfl⟩ := List.exists_cons_of_ne_nil hne
  obtain ⟨h1, h2⟩ := hg
  simp [maskShape, h1.symm, h2 r (by simp)]

/-- Any in-range cell of a rectangular grid has in-range indices. -/
lemma cellAt_bounds (mask : List (List ℚ)) (H W : ℕ) (i j : ℕ) (v : ℚ)
    (hg : isGrid mask H W) (hc : cellAt mask i j = some v) : i < H ∧ j < W := by
  unfold cellAt at hc
  cases hm : mask.get? i with
  | none => rw [hm] at hc; simp at hc
  | some row =>
    rw [hm] at hc
    simp only [Option.some_bind] at hc
    constructor
    · rw [← hg.1]
      rw [List.get?_eq_some] at hm
      exact hm.1
    · rw [← hg.2 row (List.get?_mem hm)]
      rw [List.get?_eq_some] at hc
      exact hc.1

/-- A mask with some zero entry has a nonempty zero-cell scan. -/
lemma zeroCells_ne_nil_of_exists (mask : List (List ℚ))
    (h : ∃ row ∈ mask, ∃ v ∈ row, v = 0) : zeroCells 0 mask ≠ [] := by
  obtain ⟨row, hrow, v, hv, hv0⟩ := h
  subst hv0
  obtain ⟨i, hi⟩ := List.mem_iff_get?.mp hrow
  obtain ⟨j, hj⟩ := List.mem_iff_get?.mp hv
  have hc : cellAt mask i j = some 0 := by
    simp only [cellAt, hi, Option.some_bind]
    exact hj
  have hmem : ((0 + i, j) : ℕ × ℕ) ∈ zeroCells 0 mask :=
    (zeroCells_mem mask 0 _).mpr ⟨i, j, hc, rfl⟩
  exact List.ne_nil_of_mem hmem

/-- With at least one point on the stack the fallback branch is not taken and
the emitted boxes are exactly the mapped points. -/
lemma maskBoxes_map_eq (mask : List (List ℚ)) (msz px : ℚ × ℚ) (d : ℚ)
    (h : zeroCells 0 mask ≠ []) :
    MaskModel.maskBoxes mask msz px d
      = (MaskModel.mask_to_points mask msz px).map fun pt =>
          (⟨pt.1, pt.2, 0, px.1, px.2, d, false, false, false⟩ : Box ℚ) := by
  have hne : MaskModel.mask_to_points mask msz px ≠ [] := by
    simp only [MaskModel.mask_to_points, ne_eq, List.map_eq_nil_iff]
    exact h
  simp [MaskModel.maskBoxes, if_neg hne]

/-- Membership characterization of the emitted aperture boxes, for masks
holding at least one transparent cell. -/
lemma maskBoxes_mem (mask : List (List ℚ)) (H W : ℕ) (msz px : ℚ × ℚ)
    (d : ℚ) (hg : isGrid mask H W) (hz : ∃ row ∈ mask, ∃ v ∈ row, v = 0)
    (b : Box ℚ) :
    b ∈ MaskModel.maskBoxes mask msz px d ↔
      ∃ i j : ℕ, i < H ∧ j < W ∧ cellAt mask i j = some 0 ∧
        b = ⟨((i : ℚ) - (H : ℚ) / 2) * px.1, ((j : ℚ) - (W : ℚ) / 2) * px.2,
              0, px.1, px.2, d, false, false, false⟩ := by
  rw [maskBoxes_map_eq mask msz px d (zeroCells_ne_nil_of_exists mask hz)]
  rcases eq_or_ne mask [] with rfl | hne
  · obtain ⟨row, hrow, -⟩ := hz
    simp at hrow
  · have hs := maskShape_eq mask H W hg hne
    simp only [MaskModel.mask_to_points, List.map_map,
      List.mem_map, Function.comp, hs]
    constructor
    · rintro ⟨a, ha, rfl⟩
      obtain ⟨i, j, hc, rfl⟩ := (zeroCells_mem mask 0 a).mp ha
      obtain ⟨hi, hj⟩ := cellAt_bounds mask H W i j 0 hg hc
      exact ⟨i, j, hi, hj, hc, by simp⟩
    · rintro ⟨i, j, _, _, hc, rfl⟩
      refine ⟨(i, j), (zeroCells_mem mask 0 (i, j)).mpr ⟨i, j, hc, by simp⟩, ?_⟩
      simp

/-- One-axis lower extent of a centered axis. -/
lemma axLo_true {α : Type} [DivisionRing α] (pos d : α) :
    axLo pos d true = pos - d / 2 := rfl

/-- One-axis lower extent of a corner-anchored axis. -/
lemma axLo_false {α : Type} [DivisionRing α] (pos d : α) :
    axLo pos d false = pos := rfl

/-- One-axis upper extent of a centered axis. -/
lemma axHi_true {α : Type} [DivisionRing α] (pos d : α) :
    axHi pos d true = pos + d / 2 := rfl

/-- One-axis upper extent of a corner-anchored axis. -/
lemma axHi_false {α : Type} [DivisionRing α] (pos d : α) :
    axHi pos d false = pos + d := rfl

/-- Box membership, unfolded to the six extent inequalities. -/
lemma memSolid_box (b : Box ℚ) (x y z : ℚ) :
    memSolid (Solid.box b) (x, y, z) = true ↔
      (Box.xlo b ≤ x ∧ x ≤ Box.xhi b ∧ Box.ylo b ≤ y ∧ y ≤ Box.yhi b ∧
        Box.zlo b ≤ z ∧ z ≤ Box.zhi b) := by
  simp [memSolid, and_assoc]

/-- Through-rectangle membership, unfolded. -/
lemma memSolid_rectThru (w h x y z : ℚ) :
    memSolid (Solid.rectThru w h) (x, y, z) = true ↔
      (-(w / 2) ≤ x ∧ x ≤ w / 2 ∧ -(h / 2) ≤ y ∧ y ≤ h / 2) := by
  simp [memSolid, and_assoc]

/-- Cut membership: in the first solid and not in the second. -/
lemma memSolid_cut (a b : Solid ℚ) (p : ℚ × ℚ × ℚ) :
    memSolid (Solid.cut a b) p = true ↔
      (memSolid a p = true ∧ ¬(memSolid b p = true)) := by
  cases ha : memSolid a p <;> cases hb : memSolid b p <;> simp [memSolid, ha, hb]

/-- Union membership: in either solid. -/
lemma memSolid_union (a b : Solid ℚ) (p : ℚ × ℚ × ℚ) :
    memSolid (Solid.union a b) p = true ↔
      (memSolid a p = true ∨ memSolid b p = true) := by
  cases ha : memSolid a p <;> cases hb : memSolid b p <;> simp [memSolid, ha, hb]

/-- Membership characterization of the frame solid: inside the padded outer
box, at extruded height, and outside the centered width-by-height cutout. -/
lemma simpleFrame_mem (p w h d x y z : ℚ) :
    memSolid (SimpleFrame.generate p (w, h) d) (x, y, z) = true ↔
      (|x| ≤ (w + 2 * p) / 2 ∧ |y| ≤ (h + 2 * p) / 2 ∧ 0 ≤ z ∧ z ≤ d ∧
        ¬(|x| ≤ w / 2 ∧ |y| ≤ h / 2)) := by
  unfold SimpleFrame.generate
  rw [memSolid_cut, memSolid_box, memSolid_rectThru]
  simp only [Box.xlo, Box.xhi, Box.ylo, Box.yhi, Box.zlo, Box.zhi,
    axLo_true, axLo_false, axHi_true, axHi_false, zero_sub, zero_add, abs_le]
  tauto

/-- C1 counterexample: the all-opaque mask `[[1]]` has no zero cell, yet the
builder emits one box — cadquery's `eachpoint` empty-stack fallback creates a
pixel-sized box anchored at the workplane origin — refuting both the claim's
one-box-per-zero-cell-and-no-other part and its all-opaque-gives-zero-boxes
consequence. -/
theorem mask_boxes_fallback_counterexample :
    countZeros [[1]] = 0
    ∧ MaskModel.maskBoxes [[1]] (1, 1) (1, 2) 3
        = [⟨0, 0, 0, 1, 2, 3, false, false, false⟩] := by
  constructor
  · norm_num [countZeros, countZerosRow]
  · simp [MaskModel.maskBoxes, MaskModel.mask_to_points, zeroCells, zeroColsFrom]

/-- C1 amended: when the mask holds at least one zero cell the builder emits
one corner-anchored box of size `(px.1, px.2, depth)` spanning `z ∈ [0,
depth]` exactly for each cell valued 0, anchored at
`((row − H/2)·px.1, (col − W/2)·px.2)`, and an all-transparent `H × W` mask
yields exactly `H·W` boxes; when no cell is zero (an all-opaque mask
included) the empty-stack fallback emits exactly one spurious box of the
same size anchored at the origin, instead of zero boxes. -/
theorem mask_boxes_characterization (mask : List (List ℚ)) (H W : ℕ)
    (msz px : ℚ × ℚ) (d : ℚ) (hg : isGrid mask H W) :
    ((∃ row ∈ mask, ∃ v ∈ row, v = 0) →
      (∀ b : Box ℚ, b ∈ MaskModel.maskBoxes mask msz px d ↔
          ∃ i j : ℕ, i < H ∧ j < W ∧ cellAt mask i j = some 0 ∧
            b = ⟨((i : ℚ) - (H : ℚ) / 2) * px.1, ((j : ℚ) - (W : ℚ) / 2) * px.2,
                  0, px.1, px.2, d, false, false, false⟩)
        ∧ (MaskModel.maskBoxes mask msz px d).length = countZeros mask
        ∧ ((∀ row ∈ mask, ∀ v ∈ row, v = 0) →
            (MaskModel.maskBoxes mask msz px d).length = H * W))
    ∧ ((∀ row ∈ mask, ∀ v ∈ row, v ≠ 0) →
        MaskModel.maskBoxes mask msz px d
          = [⟨0, 0, 0, px.1, px.2, d, false, false, false⟩]) := by
  constructor
  · intro hz
    have hmap := maskBoxes_map_eq mask msz px d (zeroCells_ne_nil_of_exists mask hz)
    have hlen : (MaskModel.maskBoxes mask msz px d).length = countZeros mask := by
      rw [hmap]
      simp [MaskModel.mask_to_points, zeroCells_length]
    refine ⟨maskBoxes_mem mask H W msz px d hg hz, hlen, ?_⟩
    intro h
    rw [hlen, countZeros_all mask W hg.2 h, hg.1]
  · intro h
    have hz : zeroCells 0 mask = [] := by
      have hl := zeroCells_length mask 0
      rw [countZeros_eq_zero mask h] at hl
      exact List.length_eq_zero.mp hl
    simp [MaskModel.maskBoxes, MaskModel.mask_to_points, hz]

/-- Witness for the amended C1 at the all-transparent 1×1 mask. -/
theorem mask_boxes_characterization_witness :
    isGrid [[0]] 1 1 ∧ (MaskModel.maskBoxes [[0]] (1, 1) (1, 1) 1).length = 1 * 1 :=
  ⟨by decide,
    ((mask_boxes_characterization [[0]] 1 1 (1, 1) (1, 1) 1 (by decide)).1
      (by decide)).2.2 (by decide)⟩

/-- C2 counterexample: on a 1×2 mask of physical size 2mm×1mm the code
computes pixel sizes `(width/H, height/W) = (2, 1/2)`, not the claimed
`(width/W, height/H) = (1, 1)`. -/
theorem pxSize_spec_counterexample :
    pxSize (scaleSize (1/500, 1/1000)) (maskShape [[0, 0]]) = (2, 1/2)
    ∧ pxSizeSpec (scaleSize (1/500, 1/1000)) (maskShape [[0, 0]]) = (1, 1)
    ∧ pxSize (scaleSize (1/500, 1/1000)) (maskShape [[0, 0]])
        ≠ pxSizeSpec (scaleSize (1/500, 1/1000)) (maskShape [[0, 0]]) := by
  refine ⟨?_, ?_, ?_⟩ <;>
    norm_num [pxSize, pxSizeSpec, scaleSize, maskShape, Prod.ext_iff]

/-- C2 amended: the per-axis pixel size is the ×1000-rescaled sensor size
divided element-wise by the array shape `(H, W)`: `(width/H, height/W)`. -/
theorem pxSize_elementwise (sz : ℚ × ℚ) (H W : ℕ) (hH : 0 < H) (hW : 0 < W) :
    pxSize (scaleSize sz) (H, W)
      = (1000 * sz.1 / (H : ℚ), 1000 * sz.2 / (W : ℚ)) := by
  simp [pxSize, scaleSize, mul_comm]

/-- Witness for the amended C2. -/
theorem pxSize_elementwise_witness :
    0 < 1 ∧ 0 < 2
    ∧ pxSize (scaleSize (1/500, 1/1000)) (1, 2)
        = (1000 * (1/500 : ℚ) / ((1 : ℕ) : ℚ), 1000 * (1/1000 : ℚ) / ((2 : ℕ) : ℚ)) :=
  ⟨by decide, by decide,
    pxSize_elementwise (1/500, 1/1000) 1 2 (by decide) (by decide)⟩

/-- C3: for positive dimensions the frame is the `(w+2p, h+2p, depth)` outer
box minus an exactly `(w, h)` cavity centered in XY and independent of z
(a through-cut); the padding never appears in the cutout bounds. -/
theorem simpleFrame_geometry (p w h d x y z : ℚ)
    (hw : 0 < w) (hh : 0 < h) (hd : 0 < d) :
    memSolid (SimpleFrame.generate p (w, h) d) (x, y, z) = true ↔
      (|x| ≤ (w + 2 * p) / 2 ∧ |y| ≤ (h + 2 * p) / 2 ∧ 0 ≤ z ∧ z ≤ d ∧
        ¬(|x| ≤ w / 2 ∧ |y| ≤ h / 2)) :=
  simpleFrame_mem p w h d x y z

/-- Witness for C3: a point in the padding ring of a 1×1 frame. -/
theorem simpleFrame_geometry_witness :
    (0 : ℚ) < 1 ∧
      (memSolid (SimpleFrame.generate 2 (1, 1) 1) (3/2, 0, 1/2) = true ↔
        (|(3/2 : ℚ)| ≤ (1 + 2 * 2) / 2 ∧ |(0 : ℚ)| ≤ (1 + 2 * 2) / 2 ∧
          (0 : ℚ) ≤ 1/2 ∧ (1/2 : ℚ) ≤ 1 ∧
          ¬(|(3/2 : ℚ)| ≤ 1 / 2 ∧ |(0 : ℚ)| ≤ 1 / 2))) :=
  ⟨by decide,
    simpleFrame_geometry 2 1 1 1 (3/2) 0 (1/2) (by decide) (by decide) (by decide)⟩

/-- C4: the cross connection is the union of a vertical `(thickness, height,
depth)` box placed at the workplane center with `z` from 0, and a chained
horizontal `(width, thickness, depth)` box placed by `eachpoint` at the
first box's center of mass `(0, 0, depth/2)` and z-centered there; both
struts are centered in XY with the claimed dimensions and both span exactly
`z ∈ [0, depth]`, forming a centered plus-sign. -/
theorem cross_struts_full_depth (t w h d : ℚ) (m : List (List ℚ)) :
    CrossConnection.generate t none m (w, h) d
      = Solid.union (Solid.box ⟨0, 0, 0, t, h, d, true, true, false⟩)
          (Solid.box ⟨0, 0, d / 2, w, t, d, true, true, true⟩)
    ∧ Box.zlo (⟨0, 0, 0, t, h, d, true, true, false⟩ : Box ℚ) = 0
    ∧ Box.zhi (⟨0, 0, 0, t, h, d, true, true, false⟩ : Box ℚ) = d
    ∧ Box.zlo (⟨0, 0, d / 2, w, t, d, true, true, true⟩ : Box ℚ) = 0
    ∧ Box.zhi (⟨0, 0, d / 2, w, t, d, true, true, true⟩ : Box ℚ) = d
    ∧ Box.xlo (⟨0, 0, 0, t, h, d, true, true, false⟩ : Box ℚ) = -(t / 2)
    ∧ Box.xhi (⟨0, 0, 0, t, h, d, true, true, false⟩ : Box ℚ) = t / 2
    ∧ Box.ylo (⟨0, 0, 0, t, h, d, true, true, false⟩ : Box ℚ) = -(h / 2)
    ∧ Box.yhi (⟨0, 0, 0, t, h, d, true, true, false⟩ : Box ℚ) = h / 2
    ∧ Box.xlo (⟨0, 0, d / 2, w, t, d, true, true, true⟩ : Box ℚ) = -(w / 2)
    ∧ Box.xhi (⟨0, 0, d / 2, w, t, d, true, true, true⟩ : Box ℚ) = w / 2
    ∧ Box.ylo (⟨0, 0, d / 2, w, t, d, true, true, true⟩ : Box ℚ) = -(t / 2)
    ∧ Box.yhi (⟨0, 0, d / 2, w, t, d, true, true, true⟩ : Box ℚ) = t / 2 := by
  refine ⟨rfl, rfl, ?_, ?_, ?_, ?_, ?_, ?_, ?_, ?_, ?_, ?_, ?_⟩ <;>
    simp [Box.zlo, Box.zhi, Box.xlo, Box.xhi, Box.ylo, Box.yhi,
      axLo_true, axHi_true, axLo_false, axHi_false, zero_sub, zero_add,
      sub_self, add_halves]

/-- C5: the saltire chamfer equals `thickness/√2` exactly — multiplying it
back by `√2` recovers the thickness, the deviation from `thickness/√2` is 0
(so certainly within 1e-9) — it is a function of the thickness alone, and
it is the offset used in every vertex of both extruded diagonal profiles. -/
theorem saltire_chamfer_exact (t w h d : ℝ) (m : List (List ℚ)) :
    SaltireConnection.chamfer (Real.sqrt 2) t = t / Real.sqrt 2
    ∧ SaltireConnection.chamfer (Real.sqrt 2) t * Real.sqrt 2 = t
    ∧ |SaltireConnection.chamfer (Real.sqrt 2) t - t / Real.sqrt 2| ≤ 1 / 1000000000
    ∧ SaltireConnection.generate (Real.sqrt 2) t none m (w, h) d
        = Solid.union
            (Solid.prism (saltireP1 (w / 2) (h / 2)
              (SaltireConnection.chamfer (Real.sqrt 2) t)) d)
            (Solid.prism (saltireP2 (w / 2) (h / 2)
              (SaltireConnection.chamfer (Real.sqrt 2) t)) d) := by
  refine ⟨rfl, ?_, ?_, rfl⟩
  · exact div_mul_cancel₀ t (Real.sqrt_ne_zero'.mpr (by norm_num))
  · have hc : SaltireConnection.chamfer (Real.sqrt 2) t = t / Real.sqrt 2 := rfl
    rw [hc, sub_self, abs_zero]
    norm_num

/-- C6: for both connection variants a `none` bore radius returns the strut
union unmodified, and a given radius `r` returns exactly one cut of a
cylinder of radius `r` and height `depth` whose axis passes through the
origin (`centered=(True, True, False)`), applied after the strut union. -/
theorem bore_subtraction_policy (t w h d r : ℚ) (m : List (List ℚ))
    (t2 w2 h2 d2 r2 : ℝ) (m2 : List (List ℚ)) :
    CrossConnection.generate t none m (w, h) d = CrossConnection.struts t (w, h) d
    ∧ CrossConnection.generate t (some r) m (w, h) d
        = Solid.cut (CrossConnection.struts t (w, h) d) (Solid.cylinder d r false)
    ∧ SaltireConnection.generate (Real.sqrt 2) t2 none m2 (w2, h2) d2
        = SaltireConnection.struts (Real.sqrt 2) t2 (w2, h2) d2
    ∧ SaltireConnection.generate (Real.sqrt 2) t2 (some r2) m2 (w2, h2) d2
        = Solid.cut (SaltireConnection.struts (Real.sqrt 2) t2 (w2, h2) d2)
            (Solid.cylinder d2 r2 false) :=
  ⟨rfl, rfl, rfl, rfl⟩

/-- The chamfer of a thickness-10 strut exceeds half the smaller dimension of
a 2×2 saltire connection. -/
lemma chamfer_ten_gt_one :
    min ((2 : ℝ) / 2) ((2 : ℝ) / 2) < SaltireConnection.chamfer (Real.sqrt 2) 10 := by
  have hs : 0 < Real.sqrt 2 := Real.sqrt_pos.mpr (by norm_num)
  have hsq := Real.sq_sqrt (show (0 : ℝ) ≤ 2 by norm_num)
  have hlt : Real.sqrt 2 < 10 := by nlinarith [Real.sqrt_nonneg 2]
  have h1 : (1 : ℝ) < 10 / Real.sqrt 2 := (one_lt_div hs).mpr hlt
  have hmin : min ((2 : ℝ) / 2) ((2 : ℝ) / 2) = 1 := by norm_num
  rw [hmin]
  exact h1

/-- C7 counterexample: with thickness 10 on a 2×2 connection the chamfer
`l = 10/√2` exceeds half the smaller dimension, yet `generate` still returns
the two-prism strut solid — no configuration is rejected. -/
theorem saltire_no_reject_counterexample :
    min ((2 : ℝ) / 2) ((2 : ℝ) / 2) < SaltireConnection.chamfer (Real.sqrt 2) 10
    ∧ SaltireConnection.generate (Real.sqrt 2) 10 none [[1]] (2, 2) 1
        = Solid.union
            (Solid.prism (saltireP1 ((2 : ℝ) / 2) ((2 : ℝ) / 2)
              (SaltireConnection.chamfer (Real.sqrt 2) 10)) 1)
            (Solid.prism (saltireP2 ((2 : ℝ) / 2) ((2 : ℝ) / 2)
              (SaltireConnection.chamfer (Real.sqrt 2) 10)) 1) :=
  ⟨chamfer_ten_gt_one, rfl⟩

/-- C7 amended: `SaltireConnection.generate` performs no chamfer-bound
validation — even when `l = thickness/√2` exceeds half the smaller physical
dimension it returns the two-prism strut solid instead of rejecting. -/
theorem saltire_no_reject (t w h d : ℝ) (m : List (List ℚ))
    (hbig : min (w / 2) (h / 2) < SaltireConnection.chamfer (Real.sqrt 2) t) :
    SaltireConnection.generate (Real.sqrt 2) t none m (w, h) d
      = Solid.union
          (Solid.prism (saltireP1 (w / 2) (h / 2)
            (SaltireConnection.chamfer (Real.sqrt 2) t)) d)
          (Solid.prism (saltireP2 (w / 2) (h / 2)
            (SaltireConnection.chamfer (Real.sqrt 2) t)) d) := rfl

/-- Witness for the amended C7 at thickness 10 on a 2×2 connection. -/
theorem saltire_no_reject_witness :
    min ((2 : ℝ) / 2) ((2 : ℝ) / 2) < SaltireConnection.chamfer (Real.sqrt 2) 10
    ∧ SaltireConnection.generate (Real.sqrt 2) 10 none [[1]] (2, 2) 1
        = Solid.union
            (Solid.prism (saltireP1 ((2 : ℝ) / 2) ((2 : ℝ) / 2)
              (SaltireConnection.chamfer (Real.sqrt 2) 10)) 1)
            (Solid.prism (saltireP2 ((2 : ℝ) / 2) ((2 : ℝ) / 2)
              (SaltireConnection.chamfer (Real.sqrt 2) 10)) 1) :=
  ⟨chamfer_ten_gt_one, saltire_no_reject 10 2 2 1 [[1]] chamfer_ten_gt_one⟩

/-- C8 counterexample: with negative dimensions `(width, height) = (-1, -1)`
and depth 1, `SimpleFrame.generate` returns a solid — the padded 3×3×1 outer
box with the `rect(-1, -1)` cutout — and the point `(5/4, 0, 1/2)`, outside
the rect footprint, lies inside it; so the generator does not reject every
non-positive input. -/
theorem simpleFrame_no_reject_counterexample :
    SimpleFrame.generate 2 (-1, -1) 1
      = Solid.cut
          (Solid.box ⟨0, 0, 0, -1 + 2 * 2, -1 + 2 * 2, 1, true, true, false⟩)
          (Solid.rectThru (-1) (-1))
    ∧ memSolid (SimpleFrame.generate 2 (-1, -1) 1) (5/4, 0, 1/2) = true := by
  constructor
  · rfl
  · rw [(simpleFrame_mem 2 (-1) (-1) 1 (5/4) 0 (1/2))]
    norm_num [abs_le]

/-- C8 amended: `SimpleFrame.generate` contains no input validation — for
every negative width and height, any padding and positive depth it still
returns the padded outer box with the rect cutout, and every point of the
padding ring outside the rect footprint belongs to the returned solid; no
rejection occurs. (A width or height of exactly zero fails incidentally
inside the CAD kernel while the degenerate rect wire is built, not through
any check in this code.) -/
theorem simpleFrame_no_validation (p w h d : ℚ)
    (hw : w < 0) (hh : h < 0) (hd : 0 < d) :
    SimpleFrame.generate p (w, h) d
      = Solid.cut
          (Solid.box ⟨0, 0, 0, w + 2 * p, h + 2 * p, d, true, true, false⟩)
          (Solid.rectThru w h)
    ∧ (∀ x y z : ℚ, |w| / 2 < |x| → |x| ≤ (w + 2 * p) / 2 →
        |y| ≤ (h + 2 * p) / 2 → 0 ≤ z → z ≤ d →
        memSolid (SimpleFrame.generate p (w, h) d) (x, y, z) = true) := by
  refine ⟨rfl, ?_⟩
  intro x y z _ h1 h2 h3 h4
  rw [simpleFrame_mem]
  refine ⟨h1, h2, h3, h4, ?_⟩
  rintro ⟨ha, -⟩
  have hx : (0 : ℚ) ≤ |x| := abs_nonneg x
  linarith

/-- Witness for the amended C8 at `(width, height) = (-1, -1)`. -/
theorem simpleFrame_no_validation_witness :
    (-1 : ℚ) < 0 ∧ (0 : ℚ) < 1
    ∧ memSolid (SimpleFrame.generate 2 (-1, -1) 1) (5/4, 0, 1/2) = true :=
  ⟨by norm_num, by norm_num,
    (simpleFrame_no_validation 2 (-1) (-1) 1 (by norm_num) (by norm_num)
        (by norm_num)).2 (5/4) 0 (1/2)
      (by norm_num [abs_of_nonneg, abs_of_nonpos]) (by norm_num [abs_le])
      (by norm_num [abs_le]) (by norm_num) (by norm_num)⟩

/-- C9 counterexample: the mask `[[2]]` holds a value outside the set
containing 0 and 1, yet model construction completes — the cell gets no
per-cell aperture box (it is treated like an opaque cell, so the empty-stack
fallback adds one pixel-sized origin box) and the composite of frame,
connection and fallback box is returned instead of aborting with any
error. -/
theorem mask_value_no_abort_counterexample :
    MaskModel.construct [[2]] (SimpleFrame.generate 2)
        (CrossConnection.generate (1/10) none) (1/1000, 1/1000) 1 false false
      = [SimpleFrame.generate 2 (scaleSize (1/1000, 1/1000)) 1,
         CrossConnection.generate (1/10) none [[2]] (scaleSize (1/1000, 1/1000)) 1,
         Solid.box ⟨0, 0, 0, 1, 1, 1, false, false, false⟩] := by
  simp [MaskModel.construct, MaskModel.maskBoxes, MaskModel.mask_to_points,
    zeroCells, zeroColsFrom, pxSize, scaleSize, maskShape]

/-- C9 amended: construction never validates mask values — any mask whose
entries are all nonzero (values outside the 0/1 alphabet included) yields no
per-cell aperture box; the empty-stack fallback emits one pixel-sized box at
the origin instead, and the construction returns the composed
frame-plus-connection-plus-fallback-box model without error. -/
theorem mask_value_ignored (mask : List (List ℚ))
    (fg : ℚ × ℚ → ℚ → Solid ℚ) (cg : List (List ℚ) → ℚ × ℚ → ℚ → Solid ℚ)
    (sz : ℚ × ℚ) (d : ℚ)
    (h : ∀ row ∈ mask, ∀ v ∈ row, v ≠ 0) :
    MaskModel.construct mask fg cg sz d false false
      = [fg (scaleSize sz) d, cg mask (scaleSize sz) d,
         Solid.box ⟨0, 0, 0, (pxSize (scaleSize sz) (maskShape mask)).1,
           (pxSize (scaleSize sz) (maskShape mask)).2, d, false, false, false⟩] := by
  have hz : zeroCells 0 mask = [] := by
    have hl := zeroCells_length mask 0
    rw [countZeros_eq_zero mask h] at hl
    exact List.length_eq_zero.mp hl
  simp [MaskModel.construct, MaskModel.maskBoxes, MaskModel.mask_to_points, hz]

/-- Witness for the amended C9 at the out-of-alphabet mask `[[2]]`. -/
theorem mask_value_ignored_witness :
    (∀ row ∈ [[(2 : ℚ)]], ∀ v ∈ row, v ≠ 0)
    ∧ MaskModel.construct [[2]] (SimpleFrame.generate 2)
        (CrossConnection.generate (1/10) none) (1/1000, 1/1000) 1 false false
      = [SimpleFrame.generate 2 (scaleSize (1/1000, 1/1000)) 1,
         CrossConnection.generate (1/10) none [[2]] (scaleSize (1/1000, 1/1000)) 1,
         Solid.box ⟨0, 0, 0,
           (pxSize (scaleSize (1/1000, 1/1000)) (maskShape [[2]])).1,
           (pxSize (scaleSize (1/1000, 1/1000)) (maskShape [[2]])).2, 1,
           false, false, false⟩] :=
  ⟨by decide,
    mask_value_ignored [[2]] (SimpleFrame.generate 2)
      (CrossConnection.generate (1/10) none) (1/1000, 1/1000) 1 (by decide)⟩

/-- C10: neither connection generator reads its mask argument — for any two
masks and identical thickness, bore radius, size and depth the generated
support solids are identical. -/
theorem connection_mask_independent (t : ℚ) (r : Option ℚ) (sz : ℚ × ℚ)
    (d : ℚ) (m1 m2 : List (List ℚ)) (t2 : ℝ) (r2 : Option ℝ) (sz2 : ℝ × ℝ)
    (d2 : ℝ) (n1 n2 : List (List ℚ)) :
    CrossConnection.generate t r m1 sz d = CrossConnection.generate t r m2 sz d
    ∧ SaltireConnection.generate (Real.sqrt 2) t2 r2 n1 sz2 d2
        = SaltireConnection.generate (Real.sqrt 2) t2 r2 n2 sz2 d2 :=
  ⟨rfl, rfl⟩
